import Mathlib

/-!
Shallow embedding of the bridge-communication layer of `myapp` (`hue.py`,
plus the pairing save flow of `app.py`), and proofs of its specified
properties.

Modelling conventions:
* JSON values (the payloads `requests.Response.json()` yields) are `JVal`.
  Python numbers (ints and floats alike; every IEEE float is a rational)
  are modelled as `ℚ`; Python `bool` is a separate constructor but is
  treated as numeric where the source uses `isinstance(x, (int, float))`,
  since Python's `bool` is a subtype of `int`.
* `round` is Python 3 `round`: round-half-to-even (`pythonRound`).
* Code that can raise is modelled in `Except PyErr`; `dict.get` on a
  non-dict raises `AttributeError`, `x[k]` and `k in x` on unsupported
  shapes raise `TypeError`, `RuntimeError(msg)` carries its message.
* HTTP side effects are modelled by returning the issued request(s) as
  data (`HueReq`); response payloads are passed in as arguments.
-/

namespace Hue

/-- A JSON value, the shape of every bridge payload. -/
inductive JVal : Type where
  | null : JVal
  | bool : Bool → JVal
  | num : ℚ → JVal
  | str : String → JVal
  | arr : List JVal → JVal
  | obj : List (String × JVal) → JVal

/-- Python exceptions that the embedded code can raise. -/
inductive PyErr : Type where
  | runtimeError : String → PyErr
  | attrError : PyErr
  | typeError : PyErr
  | valueError : PyErr
deriving DecidableEq

namespace JVal

/-- First-match lookup in an association list (Python dicts never hold
duplicate keys, so first match equals the dict lookup). -/
def alistGet (kvs : List (String × JVal)) (k : String) : Option JVal :=
  match kvs with
  | [] => none
  | (k', v) :: rest => if k' = k then some v else alistGet rest k

/-- Python truthiness `bool(x)` for JSON values. -/
def jTruthy : JVal → Bool
  | .null => false
  | .bool b => b
  | .num q => decide (q ≠ 0)
  | .str s => decide (s ≠ "")
  | .arr xs => !xs.isEmpty
  | .obj kvs => !kvs.isEmpty

/-- `isinstance(x, (int, float))` plus the numeric value: Python `bool`
is an `int` subtype, so `True`/`False` count as `1`/`0`. -/
def jAsNum : JVal → Option ℚ
  | .num q => some q
  | .bool b => some (if b then 1 else 0)
  | _ => none

/-- `d.get(k, default)`: raises `AttributeError` unless `d` is a dict. -/
def pyGetD (v : JVal) (k : String) (d : JVal) : Except PyErr JVal :=
  match v with
  | .obj kvs => .ok ((alistGet kvs k).getD d)
  | _ => .error .attrError

/-- `d.get(k)`: raises `AttributeError` unless `d` is a dict. -/
def pyGet (v : JVal) (k : String) : Except PyErr (Option JVal) :=
  match v with
  | .obj kvs => .ok (alistGet kvs k)
  | _ => .error .attrError

/-- `x[k]` for a string key: dict indexing; `TypeError` otherwise
(`KeyError` on a missing key is also folded into `TypeError` here; no
modelled payload hits it). -/
def pySubscript (v : JVal) (k : String) : Except PyErr JVal :=
  match v with
  | .obj kvs =>
    match alistGet kvs k with
    | some x => .ok x
    | none => .error .typeError
  | _ => .error .typeError

/-- Is `sub` a substring of `s` (Python `sub in s` on strings). -/
def strContains (s sub : String) : Bool :=
  decide (sub.toList <:+: s.toList)

/-- `k in x`: key membership for dicts, substring for strings, element
membership for lists, `TypeError` otherwise. -/
def pyIn (k : String) (v : JVal) : Except PyErr Bool :=
  match v with
  | .obj kvs => .ok (kvs.any (fun p => p.1 = k))
  | .str s => .ok (strContains s k)
  | .arr xs =>
    .ok (xs.any (fun x => match x with | .str s => decide (s = k) | _ => false))
  | _ => .error .typeError

/-- Python `str()` of a JSON value, to the extent the error-message
formatting needs it. -/
def pyStr : JVal → String
  | .null => "None"
  | .bool b => if b then "True" else "False"
  | .num q => if q.den = 1 then toString q.num else toString q
  | .str s => s
  | .arr _ => "[...]"
  | .obj _ => "{...}"

/-- `int(s)` on a string id, `ValueError` when unparsable. -/
def pyToInt (s : String) : Except PyErr Int :=
  match s.toInt? with
  | some n => .ok n
  | none => .error .valueError

end JVal

open JVal

/-- Python 3 `round` to the nearest integer, ties to even, on exact
rationals. -/
def pythonRound (x : ℚ) : ℤ :=
  if x - (⌊x⌋ : ℚ) < 1/2 then ⌊x⌋
  else if 1/2 < x - (⌊x⌋ : ℚ) then ⌊x⌋ + 1
  else if ⌊x⌋ % 2 = 0 then ⌊x⌋ else ⌊x⌋ + 1

/-- Python `%` on numbers (sign follows the divisor; here the divisor is
positive). -/
def pymod (a b : ℚ) : ℚ := a - b * (⌊a / b⌋ : ℚ)

/-- `max(0, min(100, int(percent)))`: the write-path percent clamp of
`set_brightness` / `set_room_brightness`. -/
def clamp_pct (percent : Int) : Int := max 0 (min 100 percent)

/-- `max(1, min(254, int(round(pct * 254 / 100))))`: the write-path
percent→native conversion of `set_brightness` / `set_room_brightness`. -/
def native_bri (pct : Int) : Int :=
  max 1 (min 254 (pythonRound ((pct : ℚ) * 254 / 100)))

/-- `int(round((hue_degrees % 360) * 65535 / 360.0))`: the native hue of
`set_color_hs` / `set_room_color_hs`. -/
def native_hue (hue_degrees : ℚ) : Int :=
  pythonRound (pymod hue_degrees 360 * 65535 / 360)

/-- `int(round(max(0, min(100, sat_percent)) * 254 / 100.0))`: the native
saturation of `set_color_hs` / `set_room_color_hs`. -/
def native_sat (sat_percent : ℚ) : Int :=
  pythonRound (max 0 (min 100 sat_percent) * 254 / 100)

/-- The read-path brightness derivation shared by `list_lights_detailed`,
`list_rooms_detailed` and `list_lights_detailed_for_room`:
`int(round(bri_raw * 100 / 254)) if isinstance(bri_raw, (int, float))
else (100 if on else 0)`. -/
def derive_bri (bri_raw : JVal) (isOn : Bool) : Int :=
  match jAsNum bri_raw with
  | some q => pythonRound (q * 100 / 254)
  | none => if isOn then 100 else 0

/-- The message built by `_raise_if_error`:
`f"Hue error {err.get('type')}: {err.get('description')} ({err.get('address')})"`. -/
def hue_err_msg (err : List (String × JVal)) : String :=
  "Hue error " ++ pyStr ((alistGet err "type").getD .null) ++ ": "
    ++ pyStr ((alistGet err "description").getD .null) ++ " ("
    ++ pyStr ((alistGet err "address").getD .null) ++ ")"

/-- `isinstance(item, dict) and "error" in item`. -/
def is_err_item (item : JVal) : Bool :=
  match item with
  | .obj kvs => kvs.any (fun p => p.1 = "error")
  | _ => false

/-- Raising on the error value `item["error"]` (a non-dict error value
makes `err.get` raise `AttributeError`). -/
def raise_err (errVal : JVal) : Except PyErr JVal :=
  match errVal with
  | .obj err => .error (.runtimeError (hue_err_msg err))
  | _ => .error .attrError

/-- The list loop of `_raise_if_error`. -/
def raise_first_err (items : List JVal) : Except PyErr Unit :=
  match items with
  | [] => .ok ()
  | item :: rest =>
    if h : is_err_item item then
      match item, h with
      | .obj kvs, _ => raise_err ((alistGet kvs "error").getD .null) >>= fun _ => .ok ()
    else raise_first_err rest

/-- `_raise_if_error(resp_json)`: scans a list payload for the first
element carrying an `error` key, checks a dict payload for an `error`
key, and raises a `RuntimeError` naming the vendor error's type,
description and address; every other payload is returned unchanged. -/
def raise_if_error (resp_json : JVal) : Except PyErr JVal :=
  match resp_json with
  | .arr items => raise_first_err items >>= fun _ => .ok (.arr items)
  | .obj kvs =>
    match alistGet kvs "error" with
    | some errVal => raise_err errVal
    | none => .ok (.obj kvs)
  | v => .ok v

/-- An HTTP request issued against the bridge: the URL parts after
`/api/<username>/` and the JSON body of a PUT. -/
structure HueReq : Type where
  path : List String
  body : List (String × JVal)

/-- `set_on(light_id, on)`: the single PUT it issues. -/
def set_on (light_id : Int) (isOn : Bool) : List HueReq :=
  [⟨["lights", toString light_id, "state"], [("on", .bool isOn)]⟩]

/-- `set_brightness(light_id, percent)`: the PUT(s) it issues. Percent is
clamped to [0,100]; a clamped percent ≤ 0 delegates to `set_on(., False)`;
otherwise one PUT with `{"on": True, "bri": native}` is issued. -/
def set_brightness (light_id : Int) (percent : Int) : List HueReq :=
  if clamp_pct percent ≤ 0 then set_on light_id false
  else
    [⟨["lights", toString light_id, "state"],
      [("on", .bool true), ("bri", .num (native_bri (clamp_pct percent)))]⟩]

/-- `set_color_hs(light_id, hue_degrees, sat_percent)`: the PUT it
issues. -/
def set_color_hs (light_id : Int) (hue_degrees sat_percent : ℚ) : List HueReq :=
  [⟨["lights", toString light_id, "state"],
    [("on", .bool true), ("hue", .num (native_hue hue_degrees)),
     ("sat", .num (native_sat sat_percent))]⟩]

/-- `set_room_on(group_id, on)`: the single PUT it issues. -/
def set_room_on (group_id : Int) (isOn : Bool) : List HueReq :=
  [⟨["groups", toString group_id, "action"], [("on", .bool isOn)]⟩]

/-- `set_room_brightness(group_id, percent)`: the PUT(s) it issues,
mirroring `set_brightness` on the group action endpoint. -/
def set_room_brightness (group_id : Int) (percent : Int) : List HueReq :=
  if clamp_pct percent ≤ 0 then set_room_on group_id false
  else
    [⟨["groups", toString group_id, "action"],
      [("on", .bool true), ("bri", .num (native_bri (clamp_pct percent)))]⟩]

/-- `set_room_color_hs(group_id, hue_degrees, sat_percent)`: the PUT it
issues. -/
def set_room_color_hs (group_id : Int) (hue_degrees sat_percent : ℚ) : List HueReq :=
  [⟨["groups", toString group_id, "action"],
    [("on", .bool true), ("hue", .num (native_hue hue_degrees)),
     ("sat", .num (native_sat sat_percent))]⟩]

/-- One normalized entry of the `{name, on, bri, supports_color}` dicts
the list functions build. -/
structure LightEntry : Type where
  name : JVal
  isOn : Bool
  bri : Int
  supports_color : Bool

/-- `("hue" in state) or (state.get("colormode") in ("hs", "xy"))`,
evaluated on the state/action dict `st`. -/
def supports_color_of (st : JVal) : Except PyErr Bool := do
  let hasHue ← pyIn "hue" st
  if hasHue then
    pure true
  else do
    let cm ← pyGet st "colormode"
    pure (match cm with
      | some (.str s) => decide (s = "hs") || decide (s = "xy")
      | _ => false)

/-- The per-light normalization body shared verbatim by
`list_lights_detailed` and `list_lights_detailed_for_room`. -/
def light_entry (lid : String) (info : JVal) : Except PyErr LightEntry := do
  let state ← pyGetD info "state" (.obj [])
  let onV ← pyGetD state "on" (.bool false)
  let isOn := jTruthy onV
  let bri_raw ← pyGetD state "bri" (.num 254)
  let bri := derive_bri bri_raw isOn
  let supports ← supports_color_of state
  let name ← pyGetD info "name" (.str ("Light " ++ lid))
  pure ⟨name, isOn, bri, supports⟩

/-- The `for lid, info in data.items()` loop of `list_lights_detailed`. -/
def lights_entries (kvs : List (String × JVal)) :
    Except PyErr (List (Int × LightEntry)) :=
  match kvs with
  | [] => .ok []
  | (lid, info) :: rest => do
    let e ← light_entry lid info
    let n ← pyToInt lid
    let tail ← lights_entries rest
    pure ((n, e) :: tail)

/-- `list_lights_detailed()`, as a function of the `/lights` payload. -/
def list_lights_detailed (data : JVal) : Except PyErr (List (Int × LightEntry)) := do
  let _ ← raise_if_error data
  match data with
  | .obj kvs => lights_entries kvs
  | _ => .error .attrError

/-- `light_is_on(light_id)`, as a function of the `/lights/<id>`
payload: `bool(data.get("state", {}).get("on", False))`. -/
def light_is_on (data : JVal) : Except PyErr Bool := do
  let _ ← raise_if_error data
  let st ← pyGetD data "state" (.obj [])
  let onV ← pyGetD st "on" (.bool false)
  pure (jTruthy onV)

/-- The on/bri/supports normalization of one `Room` group in
`list_rooms_detailed`: `st = info.get("state", {})`,
`act = info.get("action", {})`,
`on = bool(st.get("any_on", act.get("on", False)))`, brightness and
color capability derived from `act`. -/
def room_entry (gid : String) (info : JVal) : Except PyErr LightEntry := do
  let st ← pyGetD info "state" (.obj [])
  let act ← pyGetD info "action" (.obj [])
  let actOn ← pyGetD act "on" (.bool false)
  let onV ← pyGetD st "any_on" actOn
  let isOn := jTruthy onV
  let bri_raw ← pyGetD act "bri" (.num 254)
  let bri := derive_bri bri_raw isOn
  let supports ← supports_color_of act
  let name ← pyGetD info "name" (.str ("Room " ++ gid))
  pure ⟨name, isOn, bri, supports⟩

/-- `info.get("type") != "Room"`: the group filter of
`list_rooms_detailed`. -/
def is_room_group (info : JVal) : Except PyErr Bool := do
  let t ← pyGet info "type"
  pure (match t with | some (.str s) => decide (s = "Room") | _ => false)

/-- The `for gid, info in groups.items()` loop of `list_rooms_detailed`. -/
def rooms_entries (kvs : List (String × JVal)) :
    Except PyErr (List (Int × LightEntry)) :=
  match kvs with
  | [] => .ok []
  | (gid, info) :: rest => do
    if ← is_room_group info then
      let e ← room_entry gid info
      let n ← pyToInt gid
      let tail ← rooms_entries rest
      pure ((n, e) :: tail)
    else
      rooms_entries rest

/-- `list_rooms_detailed()`, as a function of the `/groups` payload. -/
def list_rooms_detailed (groups : JVal) : Except PyErr (List (Int × LightEntry)) := do
  let _ ← raise_if_error groups
  match groups with
  | .obj kvs => rooms_entries kvs
  | _ => .error .attrError

/-- `room_is_on(group_id)`, as a function of the `/groups/<id>` payload:
returns `bool(st["any_on"])` when `"any_on" in st`, else falls back to
`bool(data.get("action", {}).get("on", False))`. -/
def room_is_on (data : JVal) : Except PyErr Bool := do
  let _ ← raise_if_error data
  let st ← pyGetD data "state" (.obj [])
  if ← pyIn "any_on" st then do
    let v ← pySubscript st "any_on"
    pure (jTruthy v)
  else do
    let act ← pyGetD data "action" (.obj [])
    let onV ← pyGetD act "on" (.bool false)
    pure (jTruthy onV)

/-- `[int(x) for x in group.get("lights", [])]`: the member ids are
numeric strings (or, tolerantly, JSON integers/bools); a non-integer
number is folded into the error case. -/
def member_light_ids (xs : List JVal) : Except PyErr (List Int) :=
  match xs with
  | [] => .ok []
  | x :: rest => do
    let n ← (match x with
      | .str s => pyToInt s
      | .num q => if q.den = 1 then .ok q.num else .error .typeError
      | .bool b => .ok (if b then 1 else 0)
      | _ => .error .typeError)
    let tail ← member_light_ids rest
    pure (n :: tail)

/-- The `for lid in light_ids` loop of `list_lights_detailed_for_room`:
looks each member id up in the full `/lights` payload (skipping falsy or
missing entries) and normalizes it with the shared per-light body. -/
def room_lights_entries (all_lights : List (String × JVal)) (ids : List Int) :
    Except PyErr (List (Int × LightEntry)) :=
  match ids with
  | [] => .ok []
  | lid :: rest =>
    match alistGet all_lights (toString lid) with
    | none => room_lights_entries all_lights rest
    | some info =>
      if jTruthy info then do
        let e ← light_entry (toString lid) info
        let tail ← room_lights_entries all_lights rest
        pure ((lid, e) :: tail)
      else room_lights_entries all_lights rest

/-- `list_lights_detailed_for_room(room_id)`, as a function of the
`/groups/<id>` payload and the `/lights` payload. -/
def list_lights_detailed_for_room (group all_lights : JVal) :
    Except PyErr (List (Int × LightEntry)) := do
  let _ ← raise_if_error group
  let lightsV ← pyGetD group "lights" (.arr [])
  let ids ← (match lightsV with
    | .arr xs => member_light_ids xs
    | _ => .error .typeError)
  if ids.isEmpty then
    pure []
  else do
    let _ ← raise_if_error all_lights
    match all_lights with
    | .obj kvs => room_lights_entries kvs ids
    | _ => .error .attrError

/-- The list loop of `create_user`: returns the first
`item.get("success")["username"]` whose `success` value is truthy and
contains a `username`, or `none` when no item matches. -/
def find_username (items : List JVal) : Except PyErr (Option JVal) :=
  match items with
  | [] => .ok none
  | item :: rest => do
    let succ ← pyGet item "success"
    match succ with
    | some sv =>
      if jTruthy sv then do
        if ← pyIn "username" sv then do
          let v ← pySubscript sv "username"
          pure (some v)
        else find_username rest
      else find_username rest
    | none => find_username rest

/-- `create_user(bridge_ip)`, as a function of the `POST /api` response
payload: passes the payload through `_raise_if_error`, extracts the
first embedded `success.username` from a list-shaped payload, and raises
`RuntimeError("Unexpected Hue response creating user.")` otherwise. -/
def create_user (resp : JVal) : Except PyErr JVal := do
  let _ ← raise_if_error resp
  let found ← (match resp with
    | .arr items => find_username items
    | _ => pure none)
  match found with
  | some v => pure v
  | none => .error (.runtimeError "Unexpected Hue response creating user.")

/-- Python `str.strip()` over the character data (ASCII whitespace). -/
def pyStrip (s : String) : String :=
  ⟨((s.data.dropWhile (fun c => c.isWhitespace)).reverse.dropWhile
      (fun c => c.isWhitespace)).reverse⟩

/-- `SettingsScreen.save` (app.py), as a function of the entered bridge
IP and username fields and of the pairing response payload: returns the
`(bridge_ip, username)` pair handed to `save_config`, or `none` when the
save is aborted (empty IP, or pairing raised). -/
def settings_save (bridge_ip username : String) (resp : JVal) :
    Option (String × JVal) :=
  if pyStrip bridge_ip = "" then none
  else if pyStrip username = "" then
    match create_user resp with
    | .ok u => some (pyStrip bridge_ip, u)
    | .error _ => none
  else some (pyStrip bridge_ip, .str (pyStrip username))

/-- Observable state of the config file for `load_config`: absent,
present but failing somewhere in `read_text`/`json.loads`/`cfg.update`
(all caught by the bare `except`), or successfully parsed to a JSON
object. -/
inductive FileState : Type where
  | absent : FileState
  | unparsable : FileState
  | object : List (String × JVal) → FileState

/-- Python dict assignment `d[k] = v` on an association list: replaces
the value in place when the key exists, appends otherwise. -/
def dictSet (d : List (String × JVal)) (k : String) (v : JVal) :
    List (String × JVal) :=
  if d.any (fun p => p.1 = k) then
    d.map (fun p => if p.1 = k then (k, v) else p)
  else d ++ [(k, v)]

/-- Python `dict.update(other)` as a fold of assignments. -/
def dictUpdate (d other : List (String × JVal)) : List (String × JVal) :=
  other.foldl (fun acc p => dictSet acc p.1 p.2) d

/-- `os.environ.get(name, "")`: the environment is a partial map. -/
def envGetD (v : Option String) : String := v.getD ""

/-- `load_config()`, as a function of the config-file state and the
`HUE_BRIDGE_IP` / `HUE_USERNAME` environment variables. Starts from
`{"bridge_ip": "", "username": ""}`; a missing file or any read/parse
failure fills both fields from the environment; a parsed object is
merged over the defaults with `cfg.update`. Total: never fails. -/
def load_config (fs : FileState) (env_ip env_user : Option String) :
    List (String × JVal) :=
  let cfg : List (String × JVal) := [("bridge_ip", .str ""), ("username", .str "")]
  match fs with
  | .object kvs => dictUpdate cfg kvs
  | .absent =>
    dictSet (dictSet cfg "bridge_ip" (.str (envGetD env_ip)))
      "username" (.str (envGetD env_user))
  | .unparsable =>
    dictSet (dictSet cfg "bridge_ip" (.str (envGetD env_ip)))
      "username" (.str (envGetD env_user))

/-- The candidate hosts swept for one prefix:
`[f"{p}{i}" for i in range(1, 255)]`. -/
def candidates (p : String) : List String :=
  (List.range' 1 254).map (fun i => p ++ toString i)

/-- The accumulation of one prefix's sweep, folded in the order the
probes complete: each completed probe adds its IP to the hit set when it
matched. `probe ip = true` models the probe returning `ip` (description
matched); `false` models `None` (no match or any network failure). -/
def sweep_hits (probe : String → Bool) (completed : List String)
    (hits : Finset String) : Finset String :=
  completed.foldl (fun h ip => if probe ip then insert ip h else h) hits

/-- `discover_bridges()`, as a function of the probe outcomes and of the
per-prefix completion orders: accumulates hits across all prefixes into
one set and returns `sorted(hits)`. -/
def discover_bridges (probe : String → Bool) (runs : List (List String)) :
    List String :=
  (runs.foldl (fun h run => sweep_hits probe run h) (∅ : Finset String)).sort (· ≤ ·)

/-! ## Arithmetic facts about the Python rounding helpers -/

theorem pythonRound_nonneg {x : ℚ} (hx : 0 ≤ x) : 0 ≤ pythonRound x := by
  have hf : (0 : ℤ) ≤ ⌊x⌋ := Int.floor_nonneg.mpr hx
  unfold pythonRound
  split_ifs <;> omega

theorem pythonRound_le {x : ℚ} {M : ℤ} (hx : x ≤ (M : ℚ)) : pythonRound x ≤ M := by
  have hfl : ⌊x⌋ ≤ M := by
    have h := Int.floor_le_floor hx
    simpa using h
  have hlow : (⌊x⌋ : ℚ) ≤ x := Int.floor_le x
  unfold pythonRound
  split_ifs with h1 h2 h3
  · exact hfl
  · have hxq : (⌊x⌋ : ℚ) + 1/2 < x := by linarith
    have hq : (⌊x⌋ : ℚ) < (M : ℚ) := by linarith
    have : ⌊x⌋ < M := by exact_mod_cast hq
    omega
  · exact hfl
  · have heq : x - (⌊x⌋ : ℚ) = 1/2 := le_antisymm (not_lt.mp h2) (not_lt.mp h1)
    have hq : (⌊x⌋ : ℚ) < (M : ℚ) := by linarith
    have : ⌊x⌋ < M := by exact_mod_cast hq
    omega

theorem pythonRound_ge {x : ℚ} {M : ℤ} (hx : (M : ℚ) ≤ x) : M ≤ pythonRound x := by
  have hfl : M ≤ ⌊x⌋ := Int.le_floor.mpr hx
  unfold pythonRound
  split_ifs <;> omega

theorem pythonRound_abs (x : ℚ) : |(pythonRound x : ℚ) - x| ≤ 1/2 := by
  have h1 : (⌊x⌋ : ℚ) ≤ x := Int.floor_le x
  have h2 : x < ⌊x⌋ + 1 := Int.lt_floor_add_one x
  unfold pythonRound
  split_ifs with ha hb hc <;>
    (rw [abs_le]; constructor <;> (push_cast; linarith))

/-- The value a numeric `bri` key must carry for the read-path percent to
be a percentage: nothing when non-numeric, a value in the native
brightness range 0–254 otherwise. -/
def BriRawOK (raw : JVal) : Prop :=
  ∀ q : ℚ, jAsNum raw = some q → 0 ≤ q ∧ q ≤ 254

theorem derive_bri_bounds (raw : JVal) (isOn : Bool) (hok : BriRawOK raw) :
    0 ≤ derive_bri raw isOn ∧ derive_bri raw isOn ≤ 100 := by
  unfold derive_bri
  cases hq : jAsNum raw with
  | none => cases isOn <;> simp
  | some q =>
    obtain ⟨h0, h1⟩ := hok q hq
    refine ⟨pythonRound_nonneg (by positivity), pythonRound_le ?_⟩
    push_cast
    linarith

theorem clamp_pct_bounds (p : Int) : 0 ≤ clamp_pct p ∧ clamp_pct p ≤ 100 := by
  unfold clamp_pct
  omega

theorem clamp_pct_idem (p : Int) : clamp_pct (clamp_pct p) = clamp_pct p := by
  unfold clamp_pct
  omega

/-! ## Inversion helpers for the `Except` plumbing -/

theorem except_bind_ok {α β : Type} {x : Except PyErr α} {f : α → Except PyErr β}
    {b : β} (h : (x >>= f) = .ok b) : ∃ a, x = .ok a ∧ f a = .ok b := by
  cases x with
  | error e => simp [Bind.bind, Except.bind] at h
  | ok a => exact ⟨a, rfl, by simpa [Bind.bind, Except.bind] using h⟩

theorem alistGet_mem {kvs : List (String × JVal)} {k : String} {v : JVal}
    (h : alistGet kvs k = some v) : (k, v) ∈ kvs := by
  induction kvs with
  | nil => simp [alistGet] at h
  | cons hd tl ih =>
    obtain ⟨k', v'⟩ := hd
    unfold alistGet at h
    split_ifs at h with hk
    · subst hk
      cases h
      simp
    · simp [ih h]

/-! ## The brightness-percentage invariant at the level of entries -/

/-- A light payload whose `state.bri`, when numeric, lies in the native
range 0–254. -/
def BriOK (info : JVal) : Prop :=
  ∀ state raw, pyGetD info "state" (.obj []) = .ok state →
    pyGetD state "bri" (.num 254) = .ok raw → BriRawOK raw

/-- A group payload whose `action.bri`, when numeric, lies in the native
range 0–254. -/
def RoomBriOK (info : JVal) : Prop :=
  ∀ act raw, pyGetD info "action" (.obj []) = .ok act →
    pyGetD act "bri" (.num 254) = .ok raw → BriRawOK raw

theorem light_entry_bri {lid : String} {info : JVal} {e : LightEntry}
    (h : light_entry lid info = .ok e) (hok : BriOK info) :
    0 ≤ e.bri ∧ e.bri ≤ 100 := by
  unfold light_entry at h
  obtain ⟨state, hst, h⟩ := except_bind_ok h
  obtain ⟨onV, hon, h⟩ := except_bind_ok h
  obtain ⟨raw, hraw, h⟩ := except_bind_ok h
  obtain ⟨sup, hsup, h⟩ := except_bind_ok h
  obtain ⟨name, hname, h⟩ := except_bind_ok h
  have he : e = ⟨name, jTruthy onV, derive_bri raw (jTruthy onV), sup⟩ := by
    simpa [pure, Except.pure] using h.symm
  subst he
  simpa using derive_bri_bounds raw (jTruthy onV) (hok state raw hst hraw)

theorem room_entry_bri {gid : String} {info : JVal} {e : LightEntry}
    (h : room_entry gid info = .ok e) (hok : RoomBriOK info) :
    0 ≤ e.bri ∧ e.bri ≤ 100 := by
  unfold room_entry at h
  obtain ⟨st, hst, h⟩ := except_bind_ok h
  obtain ⟨act, hact, h⟩ := except_bind_ok h
  obtain ⟨actOn, hactOn, h⟩ := except_bind_ok h
  obtain ⟨onV, hon, h⟩ := except_bind_ok h
  obtain ⟨raw, hraw, h⟩ := except_bind_ok h
  obtain ⟨sup, hsup, h⟩ := except_bind_ok h
  obtain ⟨name, hname, h⟩ := except_bind_ok h
  have he : e = ⟨name, jTruthy onV, derive_bri raw (jTruthy onV), sup⟩ := by
    simpa [pure, Except.pure] using h.symm
  subst he
  simpa using derive_bri_bounds raw (jTruthy onV) (hok act raw hact hraw)

theorem lights_entries_bri {kvs : List (String × JVal)}
    {out : List (Int × LightEntry)} (h : lights_entries kvs = .ok out)
    (hok : ∀ pr ∈ kvs, BriOK pr.2) :
    ∀ pr ∈ out, 0 ≤ pr.2.bri ∧ pr.2.bri ≤ 100 := by
  induction kvs generalizing out with
  | nil =>
    unfold lights_entries at h
    cases h
    simp
  | cons hd tl ih =>
    obtain ⟨lid, info⟩ := hd
    unfold lights_entries at h
    obtain ⟨e, he, h⟩ := except_bind_ok h
    obtain ⟨n, hn, h⟩ := except_bind_ok h
    obtain ⟨tail, htail, h⟩ := except_bind_ok h
    have hout : out = (n, e) :: tail := by simpa [pure, Except.pure] using h.symm
    subst hout
    intro pr hpr
    rcases List.mem_cons.mp hpr with h1 | h2
    · subst h1
      exact light_entry_bri he (hok (lid, info) (by simp))
    · exact ih htail (fun pr hpr => hok pr (List.mem_cons_of_mem _ hpr)) pr h2

theorem rooms_entries_bri {kvs : List (String × JVal)}
    {out : List (Int × LightEntry)} (h : rooms_entries kvs = .ok out)
    (hok : ∀ pr ∈ kvs, RoomBriOK pr.2) :
    ∀ pr ∈ out, 0 ≤ pr.2.bri ∧ pr.2.bri ≤ 100 := by
  induction kvs generalizing out with
  | nil =>
    unfold rooms_entries at h
    cases h
    simp
  | cons hd tl ih =>
    obtain ⟨gid, info⟩ := hd
    unfold rooms_entries at h
    obtain ⟨b, hb, h⟩ := except_bind_ok h
    cases b with
    | false =>
      simp only [Bool.false_eq_true, if_false] at h
      exact ih h (fun pr hpr => hok pr (List.mem_cons_of_mem _ hpr))
    | true =>
      simp only [if_true] at h
      obtain ⟨e, he, h⟩ := except_bind_ok h
      obtain ⟨n, hn, h⟩ := except_bind_ok h
      obtain ⟨tail, htail, h⟩ := except_bind_ok h
      have hout : out = (n, e) :: tail := by simpa [pure, Except.pure] using h.symm
      subst hout
      intro pr hpr
      rcases List.mem_cons.mp hpr with h1 | h2
      · subst h1
        exact room_entry_bri he (hok (gid, info) (by simp))
      · exact ih htail (fun pr hpr => hok pr (List.mem_cons_of_mem _ hpr)) pr h2

theorem room_lights_entries_bri {all_lights : List (String × JVal)}
    {ids : List Int} {out : List (Int × LightEntry)}
    (h : room_lights_entries all_lights ids = .ok out)
    (hok : ∀ pr ∈ all_lights, BriOK pr.2) :
    ∀ pr ∈ out, 0 ≤ pr.2.bri ∧ pr.2.bri ≤ 100 := by
  induction ids generalizing out with
  | nil =>
    unfold room_lights_entries at h
    cases h
    simp
  | cons lid rest ih =>
    unfold room_lights_entries at h
    cases hget : alistGet all_lights (toString lid) with
    | none =>
      rw [hget] at h
      exact ih h
    | some info =>
      rw [hget] at h
      simp only [] at h
      by_cases ht : jTruthy info
      · rw [if_pos ht] at h
        obtain ⟨e, he, h⟩ := except_bind_ok h
        obtain ⟨tail, htail, h⟩ := except_bind_ok h
        have hout : out = (lid, e) :: tail := by simpa [pure, Except.pure] using h.symm
        subst hout
        intro pr hpr
        rcases List.mem_cons.mp hpr with h1 | h2
        · subst h1
          exact light_entry_bri he (hok (toString lid, info) (alistGet_mem hget))
        · exact ih htail pr h2
      · rw [if_neg ht] at h
        exact ih h

/-! ## Claims -/

/-- C1: on every light/room read (`list_lights_detailed`,
`list_rooms_detailed`, `list_lights_detailed_for_room`) the derived
brightness percent lies in [0,100] whenever the payload's numeric `bri`
values lie in the native range 0–254 (`BriRawOK`; non-numeric values take
the 100/0 fallback, also in range), and on every brightness write
(`set_brightness`, `set_room_brightness`) the integer percent input is
clamped to [0,100] before conversion. -/
theorem brightness_pct_in_range :
    (∀ (raw : JVal) (isOn : Bool), BriRawOK raw →
        0 ≤ derive_bri raw isOn ∧ derive_bri raw isOn ≤ 100)
    ∧ (∀ p : Int, 0 ≤ clamp_pct p ∧ clamp_pct p ≤ 100)
    ∧ (∀ lightId p : Int, set_brightness lightId p = set_brightness lightId (clamp_pct p)
        ∧ set_room_brightness lightId p = set_room_brightness lightId (clamp_pct p))
    ∧ (∀ (kvs : List (String × JVal)) (out : List (Int × LightEntry)),
        list_lights_detailed (.obj kvs) = .ok out →
        (∀ pr ∈ kvs, BriOK pr.2) → ∀ pr ∈ out, 0 ≤ pr.2.bri ∧ pr.2.bri ≤ 100)
    ∧ (∀ (kvs : List (String × JVal)) (out : List (Int × LightEntry)),
        list_rooms_detailed (.obj kvs) = .ok out →
        (∀ pr ∈ kvs, RoomBriOK pr.2) → ∀ pr ∈ out, 0 ≤ pr.2.bri ∧ pr.2.bri ≤ 100)
    ∧ (∀ (group : JVal) (kvs : List (String × JVal)) (out : List (Int × LightEntry)),
        list_lights_detailed_for_room group (.obj kvs) = .ok out →
        (∀ pr ∈ kvs, BriOK pr.2) → ∀ pr ∈ out, 0 ≤ pr.2.bri ∧ pr.2.bri ≤ 100) := by
  refine ⟨derive_bri_bounds, clamp_pct_bounds, ?_, ?_, ?_, ?_⟩
  · intro lightId p
    constructor
    · simp only [set_brightness, clamp_pct_idem]
    · simp only [set_room_brightness, clamp_pct_idem]
  · intro kvs out h hok
    unfold list_lights_detailed at h
    obtain ⟨_, _, h⟩ := except_bind_ok h
    simp only [] at h
    exact lights_entries_bri h hok
  · intro kvs out h hok
    unfold list_rooms_detailed at h
    obtain ⟨_, _, h⟩ := except_bind_ok h
    simp only [] at h
    exact rooms_entries_bri h hok
  · intro group kvs out h hok
    unfold list_lights_detailed_for_room at h
    obtain ⟨_, _, h⟩ := except_bind_ok h
    obtain ⟨lv, hlv, h⟩ := except_bind_ok h
    obtain ⟨ids, hids, h⟩ := except_bind_ok h
    by_cases hemp : ids.isEmpty
    · rw [if_pos hemp] at h
      have hout : out = [] := by simpa [pure, Except.pure] using h.symm
      subst hout
      simp
    · rw [if_neg hemp] at h
      obtain ⟨_, _, h⟩ := except_bind_ok h
      simp only [] at h
      exact room_lights_entries_bri h hok

/-- C1 witness: the bounds hold at the concrete native value 127 and at
the concrete out-of-range percent input 250. -/
theorem brightness_pct_in_range_witness :
    (0 ≤ derive_bri (.num 127) true ∧ derive_bri (.num 127) true ≤ 100)
    ∧ (0 ≤ clamp_pct 250 ∧ clamp_pct 250 ≤ 100) := by
  constructor
  · apply brightness_pct_in_range.1 (.num 127) true
    intro q hq
    have h : (127 : ℚ) = q := by simpa [jAsNum] using hq
    subst h
    norm_num
  · exact brightness_pct_in_range.2.1 250

/-- C2: for every integer percent `p` in [1,100], converting through
the write path of `set_brightness` (clamp, then `native_bri`) and back
through the read path of `list_lights_detailed` (`derive_bri`) returns a
percent within ±1 of `p`. -/
theorem bri_roundtrip (p : Int) (h1 : 1 ≤ p) (h2 : p ≤ 100) :
    |derive_bri (.num ((native_bri (clamp_pct p) : ℤ) : ℚ)) true - p| ≤ 1 := by
  have hcl : clamp_pct p = p := by unfold clamp_pct; omega
  have hread : derive_bri (.num ((native_bri (clamp_pct p) : ℤ) : ℚ)) true
      = pythonRound (((native_bri (clamp_pct p) : ℤ) : ℚ) * 100 / 254) := rfl
  rw [hread, hcl]
  have hp1 : (1 : ℚ) ≤ (p : ℚ) := by exact_mod_cast h1
  have hp2 : (p : ℚ) ≤ 100 := by exact_mod_cast h2
  have hb1 : 1 ≤ pythonRound ((p : ℚ) * 254 / 100) := pythonRound_ge (by linarith)
  have hb2 : pythonRound ((p : ℚ) * 254 / 100) ≤ 254 := pythonRound_le (by linarith)
  have hnb : native_bri p = pythonRound ((p : ℚ) * 254 / 100) := by
    unfold native_bri
    omega
  rw [hnb]
  set n := pythonRound ((p : ℚ) * 254 / 100) with hn
  have habs1 : |(n : ℚ) - (p : ℚ) * 254 / 100| ≤ 1/2 := by
    have h := pythonRound_abs ((p : ℚ) * 254 / 100)
    rwa [← hn] at h
  have habs2 : |(pythonRound ((n : ℚ) * 100 / 254) : ℚ) - (n : ℚ) * 100 / 254| ≤ 1/2 :=
    pythonRound_abs _
  have t2 : |(n : ℚ) * 100 / 254 - (p : ℚ)| ≤ 50 / 254 := by
    have e : (n : ℚ) * 100 / 254 - (p : ℚ)
        = ((n : ℚ) - (p : ℚ) * 254 / 100) * (100 / 254) := by ring
    rw [e, abs_mul, abs_of_pos (by norm_num : (0:ℚ) < 100 / 254)]
    calc |(n : ℚ) - (p : ℚ) * 254 / 100| * (100 / 254)
        ≤ (1/2) * (100 / 254) := mul_le_mul_of_nonneg_right habs1 (by norm_num)
      _ = 50 / 254 := by norm_num
  have hq : |((pythonRound ((n : ℚ) * 100 / 254) - p : ℤ) : ℚ)| < 1 := by
    have e : ((pythonRound ((n : ℚ) * 100 / 254) - p : ℤ) : ℚ)
        = ((pythonRound ((n : ℚ) * 100 / 254) : ℤ) : ℚ) - (n : ℚ) * 100 / 254
          + ((n : ℚ) * 100 / 254 - (p : ℚ)) := by push_cast; ring
    rw [e]
    calc |((pythonRound ((n : ℚ) * 100 / 254) : ℤ) : ℚ) - (n : ℚ) * 100 / 254
          + ((n : ℚ) * 100 / 254 - (p : ℚ))|
        ≤ |((pythonRound ((n : ℚ) * 100 / 254) : ℤ) : ℚ) - (n : ℚ) * 100 / 254|
          + |(n : ℚ) * 100 / 254 - (p : ℚ)| := abs_add _ _
      _ ≤ 1/2 + 50 / 254 := add_le_add habs2 t2
      _ < 1 := by norm_num
  have hz : |pythonRound ((n : ℚ) * 100 / 254) - p| < 1 := by
    rw [← Int.cast_abs] at hq
    exact_mod_cast hq
  omega

/-- C2 witness: the round trip at `p = 50` (native 127) lands back on
exactly 50. -/
theorem bri_roundtrip_witness :
    |derive_bri (.num ((native_bri (clamp_pct 50) : ℤ) : ℚ)) true - 50| ≤ 1 ∧
    derive_bri (.num ((native_bri (clamp_pct 50) : ℤ) : ℚ)) true = 50 := by
  refine ⟨bri_roundtrip 50 (by norm_num) (by norm_num), ?_⟩
  have hnb : native_bri (clamp_pct 50) = 127 := by
    norm_num [native_bri, clamp_pct, pythonRound]
  rw [show derive_bri (.num ((native_bri (clamp_pct 50) : ℤ) : ℚ)) true
      = pythonRound (((native_bri (clamp_pct 50) : ℤ) : ℚ) * 100 / 254) from rfl, hnb]
  norm_num [pythonRound]

/-- C3: for every light/room id and percent, `set_brightness` /
`set_room_brightness` with percent ≤ 0 issue exactly the `set_on` /
`set_room_on` off-request (whose body carries no `bri` key), and with
percent > 0 issue exactly one PUT whose body holds `on: true` together
with the converted native `bri`. -/
theorem set_brightness_routes (lightId percent : Int) :
    (percent ≤ 0 →
      set_brightness lightId percent = set_on lightId false
      ∧ set_room_brightness lightId percent = set_room_on lightId false
      ∧ (∀ r ∈ set_brightness lightId percent, alistGet r.body "bri" = none)
      ∧ (∀ r ∈ set_room_brightness lightId percent, alistGet r.body "bri" = none))
    ∧ (0 < percent →
      set_brightness lightId percent
        = [⟨["lights", toString lightId, "state"],
            [("on", .bool true), ("bri", .num (native_bri (clamp_pct percent)))]⟩]
      ∧ set_room_brightness lightId percent
        = [⟨["groups", toString lightId, "action"],
            [("on", .bool true), ("bri", .num (native_bri (clamp_pct percent)))]⟩]) := by
  constructor
  · intro hle
    have hc : clamp_pct percent ≤ 0 := by unfold clamp_pct; omega
    have hl : set_brightness lightId percent = set_on lightId false := by
      unfold set_brightness
      rw [if_pos hc]
    have hr : set_room_brightness lightId percent = set_room_on lightId false := by
      unfold set_room_brightness
      rw [if_pos hc]
    refine ⟨hl, hr, ?_, ?_⟩
    · intro r hrm
      rw [hl] at hrm
      unfold set_on at hrm
      simp only [List.mem_singleton] at hrm
      subst hrm
      rfl
    · intro r hrm
      rw [hr] at hrm
      unfold set_room_on at hrm
      simp only [List.mem_singleton] at hrm
      subst hrm
      rfl
  · intro hpos
    have hc : ¬ clamp_pct percent ≤ 0 := by unfold clamp_pct; omega
    constructor
    · unfold set_brightness
      rw [if_neg hc]
    · unfold set_room_brightness
      rw [if_neg hc]

/-- C3 witness: percent 0 routes to the off call at light 7, and percent
70 issues the single brightness PUT with native value 178. -/
theorem set_brightness_routes_witness :
    set_brightness 7 0 = set_on 7 false ∧
    set_brightness 7 70
      = [⟨["lights", "7", "state"], [("on", .bool true), ("bri", .num 178)]⟩] := by
  constructor
  · exact ((set_brightness_routes 7 0).1 (by norm_num)).1
  · have h := ((set_brightness_routes 7 70).2 (by norm_num)).1
    have hv : native_bri (clamp_pct 70) = 178 := by
      norm_num [native_bri, clamp_pct, pythonRound]
    rw [hv] at h
    exact h

/-! ## Group on-state precedence (C4) -/

theorem ok_bind {α β : Type} (a : α) (f : α → Except PyErr β) :
    (Except.ok a >>= f) = f a := rfl

theorem pyGetD_obj (kvs : List (String × JVal)) (k : String) (d : JVal) :
    pyGetD (.obj kvs) k d = .ok ((alistGet kvs k).getD d) := rfl

theorem pyGet_obj (kvs : List (String × JVal)) (k : String) :
    pyGet (.obj kvs) k = .ok (alistGet kvs k) := rfl

theorem pyIn_obj (k : String) (kvs : List (String × JVal)) :
    pyIn k (.obj kvs) = .ok (kvs.any (fun p => p.1 = k)) := rfl

theorem pySubscript_obj (kvs : List (String × JVal)) (k : String) :
    pySubscript (.obj kvs) k
      = (match alistGet kvs k with
         | some x => .ok x
         | none => .error .typeError) := rfl

theorem raise_if_error_obj (kvs : List (String × JVal)) :
    raise_if_error (.obj kvs)
      = (match alistGet kvs "error" with
         | some errVal => raise_err errVal
         | none => .ok (.obj kvs)) := rfl

theorem any_key_of_alistGet {kvs : List (String × JVal)} {k : String} {v : JVal}
    (h : alistGet kvs k = some v) : kvs.any (fun p => p.1 = k) = true := by
  induction kvs with
  | nil => simp [alistGet] at h
  | cons hd tl ih =>
    obtain ⟨k', v'⟩ := hd
    unfold alistGet at h
    by_cases hk : k' = k
    · simp [hk]
    · rw [if_neg hk] at h
      simp [ih h]

theorem any_key_of_alistGet_none {kvs : List (String × JVal)} {k : String}
    (h : alistGet kvs k = none) : kvs.any (fun p => p.1 = k) = false := by
  induction kvs with
  | nil => simp
  | cons hd tl ih =>
    obtain ⟨k', v'⟩ := hd
    unfold alistGet at h
    by_cases hk : k' = k
    · rw [if_pos hk] at h
      cases h
    · rw [if_neg hk] at h
      simp [hk, ih h]

/-- The color-capability boolean `supports_color_of` computes on a dict. -/
def supports_color_formula (a : List (String × JVal)) : Bool :=
  if a.any (fun p => p.1 = "hue") then true
  else
    match alistGet a "colormode" with
    | some (.str s) => decide (s = "hs") || decide (s = "xy")
    | _ => false

theorem supports_color_of_obj (a : List (String × JVal)) :
    supports_color_of (.obj a) = .ok (supports_color_formula a) := by
  unfold supports_color_of supports_color_formula
  rw [pyIn_obj, ok_bind]
  by_cases hh : a.any (fun p => p.1 = "hue")
  · rw [if_pos hh, if_pos hh]
    rfl
  · rw [if_neg hh, if_neg hh, pyGet_obj, ok_bind]
    rfl

/-- Full evaluation of `room_entry` on a group dict whose `state` and
`action` values (after the `{}` defaults) are dicts: it always succeeds,
with `on` preferring `state.any_on` and falling back to `action.on`. -/
theorem room_entry_eval (kvs st a : List (String × JVal)) (gid : String)
    (hst : (alistGet kvs "state").getD (.obj []) = .obj st)
    (ha : (alistGet kvs "action").getD (.obj []) = .obj a) :
    room_entry gid (.obj kvs) = .ok
      ⟨(alistGet kvs "name").getD (.str ("Room " ++ gid)),
       jTruthy ((alistGet st "any_on").getD ((alistGet a "on").getD (.bool false))),
       derive_bri ((alistGet a "bri").getD (.num 254))
         (jTruthy ((alistGet st "any_on").getD ((alistGet a "on").getD (.bool false)))),
       supports_color_formula a⟩ := by
  unfold room_entry
  rw [pyGetD_obj, hst, ok_bind, pyGetD_obj, ha, ok_bind, pyGetD_obj, ok_bind,
    pyGetD_obj, ok_bind, pyGetD_obj, ok_bind, supports_color_of_obj, ok_bind,
    pyGetD_obj, ok_bind]
  rfl

/-- The group payload's `state` lacks a usable `any_on`: either no
`state` key, or a `state` object without `any_on`. (A non-dict `state`
value would make the source raise instead.) -/
def StateAnyOnAbsent (kvs : List (String × JVal)) : Prop :=
  match alistGet kvs "state" with
  | none => True
  | some (.obj st) => alistGet st "any_on" = none
  | some _ => False

/-- The group payload's `action` is a dict or absent (the shapes on which
`act.get` succeeds, as the vendor schema promises). -/
def ActionOK (kvs : List (String × JVal)) : Prop :=
  match alistGet kvs "action" with
  | none => True
  | some (.obj _) => True
  | some _ => False

/-- The fallback on-state `bool(act.get("on", False))` a group payload
yields when `any_on` is unusable. -/
def action_on_fallback (kvs : List (String × JVal)) : Bool :=
  match alistGet kvs "action" with
  | some (.obj act) => jTruthy ((alistGet act "on").getD (.bool false))
  | _ => false

/-- C4: when a group's `state` object carries a boolean `any_on`, both
`list_rooms_detailed`'s per-group normalization (`room_entry`) and
`room_is_on` report exactly that value, whatever `action.on` says
(`room_is_on` needs no assumption on `action` at all — it never touches
it; `room_entry` evaluates `act.get` eagerly, so it assumes the schema's
dict-or-absent `action`); when `state` or its `any_on` key is absent,
both fall back to `bool(action.on)`, defaulting to false. -/
theorem room_on_prefers_any_on :
    (∀ (kvs st : List (String × JVal)) (b : Bool) (gid : String),
      alistGet kvs "state" = some (.obj st) →
      alistGet st "any_on" = some (.bool b) →
      ActionOK kvs →
      (room_entry gid (.obj kvs)).map LightEntry.isOn = .ok b)
    ∧ (∀ (kvs st : List (String × JVal)) (b : Bool),
      alistGet kvs "error" = none →
      alistGet kvs "state" = some (.obj st) →
      alistGet st "any_on" = some (.bool b) →
      room_is_on (.obj kvs) = .ok b)
    ∧ (∀ (kvs : List (String × JVal)) (gid : String),
      StateAnyOnAbsent kvs →
      ActionOK kvs →
      (room_entry gid (.obj kvs)).map LightEntry.isOn
        = .ok (action_on_fallback kvs))
    ∧ (∀ kvs : List (String × JVal),
      alistGet kvs "error" = none → StateAnyOnAbsent kvs → ActionOK kvs →
      room_is_on (.obj kvs) = .ok (action_on_fallback kvs)) := by
  have hact_of : ∀ kvs : List (String × JVal), ActionOK kvs →
      ∃ a : List (String × JVal),
        (alistGet kvs "action").getD (.obj []) = .obj a := by
    intro kvs hok
    unfold ActionOK at hok
    cases haction : alistGet kvs "action" with
    | none => exact ⟨[], rfl⟩
    | some av =>
      rw [haction] at hok
      cases av with
      | obj a => exact ⟨a, rfl⟩
      | null => cases hok
      | bool b => cases hok
      | num q => cases hok
      | str s => cases hok
      | arr xs => cases hok
  have hst_of : ∀ kvs : List (String × JVal), StateAnyOnAbsent kvs →
      ∃ st : List (String × JVal),
        (alistGet kvs "state").getD (.obj []) = .obj st
        ∧ alistGet st "any_on" = none := by
    intro kvs habs
    unfold StateAnyOnAbsent at habs
    cases hstate : alistGet kvs "state" with
    | none => exact ⟨[], rfl, rfl⟩
    | some sv =>
      rw [hstate] at habs
      cases sv with
      | obj st => exact ⟨st, rfl, habs⟩
      | null => cases habs
      | bool b => cases habs
      | num q => cases habs
      | str s => cases habs
      | arr xs => cases habs
  refine ⟨?_, ?_, ?_, ?_⟩
  · intro kvs st b gid hst hany hok
    obtain ⟨a, ha⟩ := hact_of kvs hok
    rw [room_entry_eval kvs st a gid (by rw [hst]; rfl) ha]
    simp only [Except.map, hany, Option.getD_some]
    rfl
  · intro kvs st b herr hst hany
    have hraise : raise_if_error (.obj kvs) = .ok (.obj kvs) := by
      rw [raise_if_error_obj, herr]
    have h1 : pyGetD (.obj kvs) "state" (.obj []) = .ok (.obj st) := by
      rw [pyGetD_obj, hst]
      rfl
    have h2 : pyIn "any_on" (.obj st) = .ok true := by
      rw [pyIn_obj, any_key_of_alistGet hany]
    have h3 : pySubscript (.obj st) "any_on" = .ok (.bool b) := by
      rw [pySubscript_obj, hany]
    unfold room_is_on
    rw [hraise, ok_bind, h1, ok_bind, h2, ok_bind, if_pos rfl, h3, ok_bind]
    rfl
  · intro kvs gid habs hok
    obtain ⟨a, ha⟩ := hact_of kvs hok
    obtain ⟨st, hst, hnone⟩ := hst_of kvs habs
    rw [room_entry_eval kvs st a gid hst ha]
    simp only [Except.map, hnone, Option.getD_none]
    unfold action_on_fallback
    cases haction : alistGet kvs "action" with
    | none =>
      rw [haction] at ha
      have : a = [] := by
        have h := ha.symm
        simp only [Option.getD_none] at h
        cases h
        rfl
      subst this
      rfl
    | some av =>
      rw [haction] at ha
      simp only [Option.getD_some] at ha
      subst ha
      rfl
  · intro kvs herr habs hok
    have hraise : raise_if_error (.obj kvs) = .ok (.obj kvs) := by
      rw [raise_if_error_obj, herr]
    obtain ⟨st, hstg, hnone⟩ := hst_of kvs habs
    have h1 : pyGetD (.obj kvs) "state" (.obj []) = .ok (.obj st) := by
      rw [pyGetD_obj, hstg]
    have h2 : pyIn "any_on" (.obj st) = .ok false := by
      rw [pyIn_obj, any_key_of_alistGet_none hnone]
    obtain ⟨a, ha⟩ := hact_of kvs hok
    have h3 : pyGetD (.obj kvs) "action" (.obj []) = .ok (.obj a) := by
      rw [pyGetD_obj, ha]
    unfold room_is_on
    rw [hraise, ok_bind, h1, ok_bind, h2, ok_bind,
      if_neg (by simp : ¬ false = true), h3, ok_bind, pyGetD_obj, ok_bind]
    unfold action_on_fallback
    cases haction : alistGet kvs "action" with
    | none =>
      rw [haction] at ha
      have haeq : a = [] := by
        simp only [Option.getD_none] at ha
        cases ha
        rfl
      subst haeq
      rfl
    | some av =>
      rw [haction] at ha
      simp only [Option.getD_some] at ha
      subst ha
      rfl

/-- C4 witness: a group with `state.any_on = true` but `action.on =
false` reports on = true through `room_is_on`. -/
theorem room_on_prefers_any_on_witness :
    room_is_on (.obj [("state", .obj [("any_on", .bool true)]),
                      ("action", .obj [("on", .bool false)])]) = .ok true :=
  room_on_prefers_any_on.2.1
    [("state", .obj [("any_on", .bool true)]), ("action", .obj [("on", .bool false)])]
    [("any_on", .bool true)] true rfl rfl rfl

/-! ## Error-envelope extraction (C5) -/

theorem error_bind {α β : Type} (e : PyErr) (f : α → Except PyErr β) :
    ((Except.error e : Except PyErr α) >>= f) = .error e := rfl

theorem raise_err_is_error (v : JVal) : ∃ e : PyErr, raise_err v = .error e := by
  cases v <;> exact ⟨_, rfl⟩

/-- `sub` occurs inside `s`. -/
def containsStr (s sub : String) : Prop := ∃ l r : String, s = l ++ sub ++ r

theorem raise_first_err_ok {items : List JVal}
    (h : ∀ item ∈ items, is_err_item item = false) :
    raise_first_err items = .ok () := by
  induction items with
  | nil => rfl
  | cons hd tl ih =>
    unfold raise_first_err
    rw [dif_neg (by simp [h hd (List.mem_cons_self hd tl)])]
    exact ih (fun item hm => h item (List.mem_cons_of_mem _ hm))

theorem raise_first_err_errors {items : List JVal}
    (h : ∃ item ∈ items, is_err_item item = true) :
    ∃ e : PyErr, raise_first_err items = .error e := by
  induction items with
  | nil => simp at h
  | cons hd tl ih =>
    by_cases hhd : is_err_item hd
    · cases hd with
      | obj kvs =>
        obtain ⟨e, he⟩ := raise_err_is_error ((alistGet kvs "error").getD .null)
        refine ⟨e, ?_⟩
        unfold raise_first_err
        rw [dif_pos hhd]
        show (raise_err ((alistGet kvs "error").getD .null)
          >>= fun _ => (Except.ok () : Except PyErr Unit)) = Except.error e
        rw [he]
        rfl
      | null => simp [is_err_item] at hhd
      | bool b => simp [is_err_item] at hhd
      | num q => simp [is_err_item] at hhd
      | str s => simp [is_err_item] at hhd
      | arr xs => simp [is_err_item] at hhd
    · obtain ⟨item, hm, hit⟩ := h
      rcases List.mem_cons.mp hm with heq | hm2
      · subst heq
        exact absurd hit hhd
      · obtain ⟨e, he⟩ := ih ⟨item, hm2, hit⟩
        refine ⟨e, ?_⟩
        unfold raise_first_err
        rw [dif_neg hhd]
        exact he
    
theorem raise_first_err_at {pre : List JVal} {kvs : List (String × JVal)}
    (rest : List JVal) (hpre : ∀ item ∈ pre, is_err_item item = false)
    (hbad : is_err_item (.obj kvs) = true) :
    raise_first_err (pre ++ .obj kvs :: rest)
      = raise_err ((alistGet kvs "error").getD .null) >>= fun _ => .ok () := by
  induction pre with
  | nil =>
    rw [List.nil_append]
    unfold raise_first_err
    rw [dif_pos hbad]
  | cons hd tl ih =>
    rw [List.cons_append]
    unfold raise_first_err
    rw [dif_neg (by simp [hpre hd (List.mem_cons_self hd tl)])]
    exact ih (fun item hm => hpre item (List.mem_cons_of_mem _ hm))

theorem hue_err_msg_fields {err : List (String × JVal)} {t d a : JVal}
    (ht : alistGet err "type" = some t)
    (hd : alistGet err "description" = some d)
    (ha : alistGet err "address" = some a) :
    hue_err_msg err
      = "Hue error " ++ pyStr t ++ ": " ++ pyStr d ++ " (" ++ pyStr a ++ ")" := by
  unfold hue_err_msg
  rw [ht, hd, ha]
  rfl

theorem hue_err_msg_contains {err : List (String × JVal)} {t d a : JVal}
    (ht : alistGet err "type" = some t)
    (hd : alistGet err "description" = some d)
    (ha : alistGet err "address" = some a) :
    containsStr (hue_err_msg err) (pyStr t)
    ∧ containsStr (hue_err_msg err) (pyStr d)
    ∧ containsStr (hue_err_msg err) (pyStr a) := by
  rw [hue_err_msg_fields ht hd ha]
  refine ⟨⟨"Hue error ", ": " ++ pyStr d ++ " (" ++ pyStr a ++ ")", ?_⟩,
    ⟨"Hue error " ++ pyStr t ++ ": ", " (" ++ pyStr a ++ ")", ?_⟩,
    ⟨"Hue error " ++ pyStr t ++ ": " ++ pyStr d ++ " (", ")", ?_⟩⟩ <;>
    simp [String.append_assoc]

/-- C5: `_raise_if_error` raises — returning no normalized data — on a
list payload containing an element with an `error` key and on a dict
payload with an `error` key, with the raised message carrying the vendor
error's type, description and address; every other payload is returned
unchanged. -/
theorem raise_if_error_spec :
    (∀ (pre rest : List JVal) (kvs err : List (String × JVal)) (t d a : JVal),
      (∀ item ∈ pre, is_err_item item = false) →
      alistGet kvs "error" = some (.obj err) →
      alistGet err "type" = some t →
      alistGet err "description" = some d →
      alistGet err "address" = some a →
      raise_if_error (.arr (pre ++ .obj kvs :: rest))
          = .error (.runtimeError (hue_err_msg err))
        ∧ containsStr (hue_err_msg err) (pyStr t)
        ∧ containsStr (hue_err_msg err) (pyStr d)
        ∧ containsStr (hue_err_msg err) (pyStr a))
    ∧ (∀ items : List JVal, (∃ item ∈ items, is_err_item item = true) →
        ∃ e : PyErr, raise_if_error (.arr items) = .error e)
    ∧ (∀ (kvs err : List (String × JVal)) (t d a : JVal),
      alistGet kvs "error" = some (.obj err) →
      alistGet err "type" = some t →
      alistGet err "description" = some d →
      alistGet err "address" = some a →
      raise_if_error (.obj kvs) = .error (.runtimeError (hue_err_msg err))
        ∧ containsStr (hue_err_msg err) (pyStr t)
        ∧ containsStr (hue_err_msg err) (pyStr d)
        ∧ containsStr (hue_err_msg err) (pyStr a))
    ∧ (∀ items : List JVal, (∀ item ∈ items, is_err_item item = false) →
        raise_if_error (.arr items) = .ok (.arr items))
    ∧ (∀ kvs : List (String × JVal), alistGet kvs "error" = none →
        raise_if_error (.obj kvs) = .ok (.obj kvs))
    ∧ raise_if_error .null = .ok .null
    ∧ (∀ b, raise_if_error (.bool b) = .ok (.bool b))
    ∧ (∀ q, raise_if_error (.num q) = .ok (.num q))
    ∧ (∀ s, raise_if_error (.str s) = .ok (.str s)) := by
  refine ⟨?_, ?_, ?_, ?_, ?_, rfl, fun b => rfl, fun q => rfl, fun s => rfl⟩
  · intro pre rest kvs err t d a hpre herr ht hd ha
    have hbad : is_err_item (.obj kvs) = true := by
      unfold is_err_item
      exact any_key_of_alistGet herr
    refine ⟨?_, hue_err_msg_contains ht hd ha⟩
    show raise_first_err (pre ++ .obj kvs :: rest) >>= _ = _
    rw [raise_first_err_at rest hpre hbad, herr]
    rfl
  · intro items h
    obtain ⟨e, he⟩ := raise_first_err_errors h
    refine ⟨e, ?_⟩
    show raise_first_err items >>= _ = _
    rw [he]
    rfl
  · intro kvs err t d a herr ht hd ha
    refine ⟨?_, hue_err_msg_contains ht hd ha⟩
    rw [raise_if_error_obj, herr]
    rfl
  · intro items h
    show raise_first_err items >>= _ = _
    rw [raise_first_err_ok h]
    rfl
  · intro kvs h
    rw [raise_if_error_obj, h]

/-- C5 witness: the spec's example payload
`[{"error": {"type": 1, "description": "x", "address": "/lights/1"}}]`
raises a message containing all three fields, and a success-shaped list
passes through unchanged. -/
theorem raise_if_error_spec_witness :
    (raise_if_error (.arr [.obj [("error",
        .obj [("type", .num 1), ("description", .str "x"),
              ("address", .str "/lights/1")])]])
      = .error (.runtimeError (hue_err_msg
          [("type", .num 1), ("description", .str "x"),
           ("address", .str "/lights/1")])))
    ∧ containsStr (hue_err_msg
        [("type", .num 1), ("description", .str "x"),
         ("address", .str "/lights/1")]) (pyStr (.str "/lights/1"))
    ∧ raise_if_error (.arr [.obj [("success", .obj [])]])
        = .ok (.arr [.obj [("success", .obj [])]]) := by
  have h := raise_if_error_spec.1 [] []
    [("error", .obj [("type", .num 1), ("description", .str "x"),
        ("address", .str "/lights/1")])]
    [("type", .num 1), ("description", .str "x"), ("address", .str "/lights/1")]
    (.num 1) (.str "x") (.str "/lights/1")
    (by intro item hm; cases hm) rfl rfl rfl rfl
  refine ⟨by simpa using h.1, h.2.2.2, ?_⟩
  apply raise_if_error_spec.2.2.2.1
  intro item hm
  simp only [List.mem_singleton] at hm
  subst hm
  rfl

/-! ## Discovery (C6) -/

theorem sweep_hits_eq (probe : String → Bool) (completed : List String)
    (hits : Finset String) :
    sweep_hits probe completed hits = (completed.filter probe).toFinset ∪ hits := by
  induction completed generalizing hits with
  | nil => simp [sweep_hits]
  | cons hd tl ih =>
    unfold sweep_hits at ih ⊢
    rw [List.foldl_cons, ih]
    by_cases h : probe hd
    · rw [if_pos h, List.filter_cons_of_pos h]
      ext x
      simp only [List.toFinset_cons, Finset.mem_union, Finset.mem_insert,
        List.mem_toFinset]
      tauto
    · rw [if_neg h, List.filter_cons_of_neg (by simp [h])]

theorem discover_fold_eq (probe : String → Bool) (runs : List (List String))
    (init : Finset String) :
    runs.foldl (fun h run => sweep_hits probe run h) init
      = (runs.flatten.filter probe).toFinset ∪ init := by
  induction runs generalizing init with
  | nil => simp
  | cons hd tl ih =>
    rw [List.foldl_cons, ih, sweep_hits_eq, List.flatten_cons, List.filter_append,
      List.toFinset_append, Finset.union_assoc]
    exact Finset.union_left_comm _ _ _

theorem discover_bridges_eq (probe : String → Bool) (runs : List (List String)) :
    discover_bridges probe runs
      = (runs.flatten.filter probe).toFinset.sort (· ≤ ·) := by
  unfold discover_bridges
  rw [discover_fold_eq]
  simp

theorem perm_toFinset {l1 l2 : List String} (h : List.Perm l1 l2) :
    l1.toFinset = l2.toFinset := by
  ext x
  simp [List.mem_toFinset, h.mem_iff]

/-- C6: whatever order the probes of each prefix complete in (any
permutation of that prefix's candidate list), `discover_bridges` returns
exactly the set of candidates whose probe matched — deduplicated across
prefixes by the hit set and sorted ascending — and hence the same list as
for the submission order itself. -/
theorem discover_bridges_deterministic (probe : String → Bool)
    (prefixes : List String) (runs : List (List String))
    (hperm : List.Forall₂ (fun run cand => List.Perm run cand) runs
      (prefixes.map candidates)) :
    discover_bridges probe runs
      = ((prefixes.map candidates).flatten.filter probe).toFinset.sort (· ≤ ·)
    ∧ discover_bridges probe runs
      = discover_bridges probe (prefixes.map candidates) := by
  have hflat : List.Perm runs.flatten (prefixes.map candidates).flatten :=
    List.Perm.flatten_congr hperm
  have h1 : discover_bridges probe runs
      = ((prefixes.map candidates).flatten.filter probe).toFinset.sort (· ≤ ·) := by
    rw [discover_bridges_eq, perm_toFinset (hflat.filter probe)]
  exact ⟨h1, by rw [h1, discover_bridges_eq]⟩

/-- C6 witness: with matches exactly at 10.0.0.5 and 10.0.0.9 on the
10.0.0. prefix, discovery returns exactly those two addresses in
ascending order. -/
theorem discover_bridges_deterministic_witness :
    discover_bridges (fun ip => ip == "10.0.0.5" || ip == "10.0.0.9")
      [candidates "10.0.0."] = ["10.0.0.5", "10.0.0.9"] := by
  have h := (discover_bridges_deterministic
      (fun ip => ip == "10.0.0.5" || ip == "10.0.0.9")
      ["10.0.0."] [candidates "10.0.0."]
      (List.Forall₂.cons (List.Perm.refl _) List.Forall₂.nil)).1
  rw [h]
  apply List.eq_of_perm_of_sorted (r := fun x1 x2 => x1 ≤ x2)
  · apply Multiset.coe_eq_coe.mp
    rw [show ((Finset.sort (fun x1 x2 => x1 ≤ x2)
        (((["10.0.0."].map candidates).flatten.filter
          (fun ip => ip == "10.0.0.5" || ip == "10.0.0.9")).toFinset) :
        List String) : Multiset String)
      = (((["10.0.0."].map candidates).flatten.filter
          (fun ip => ip == "10.0.0.5" || ip == "10.0.0.9")).toFinset).val
      from Multiset.sort_eq _ _]
    decide
  · exact Finset.sort_sorted _ _
  · simp only [List.sorted_cons, List.mem_singleton, forall_eq,
      List.sorted_singleton, and_true]
    rw [String.le_iff_toList_le]
    decide

/-! ## Config loading (C7) -/

theorem alistGet_map_set (d : List (String × JVal)) (k' k : String) (v : JVal) :
    alistGet (d.map (fun p => if p.1 = k' then (k', v) else p)) k
      = if k' = k then (if (alistGet d k').isSome then some v else none)
        else alistGet d k := by
  induction d with
  | nil => simp [alistGet]
  | cons hd tl ih =>
    obtain ⟨k0, v0⟩ := hd
    simp only [List.map_cons]
    by_cases h0 : k0 = k'
    · rw [if_pos h0]
      subst h0
      by_cases h1 : k0 = k
      · subst h1
        simp [alistGet, ih]
      · simp [alistGet, h1, ih]
    · rw [if_neg h0]
      by_cases h1 : k' = k
      · subst h1
        simp [alistGet, h0, ih]
      · simp [alistGet, h0, h1, ih]

theorem alistGet_append_right (d e : List (String × JVal)) (k : String)
    (h : alistGet d k = none) : alistGet (d ++ e) k = alistGet e k := by
  induction d with
  | nil => rfl
  | cons hd tl ih =>
    obtain ⟨k0, v0⟩ := hd
    unfold alistGet at h
    by_cases h0 : k0 = k
    · rw [if_pos h0] at h
      cases h
    · rw [if_neg h0] at h
      rw [List.cons_append]
      show (if k0 = k then some v0 else alistGet (tl ++ e) k) = alistGet e k
      rw [if_neg h0]
      exact ih h
    
theorem alistGet_none_of_any_false {d : List (String × JVal)} {k : String}
    (h : d.any (fun p => p.1 = k) = false) : alistGet d k = none := by
  induction d with
  | nil => rfl
  | cons hd tl ih =>
    obtain ⟨k0, v0⟩ := hd
    simp only [List.any_cons, Bool.or_eq_false_iff] at h
    unfold alistGet
    rw [if_neg (by simpa using h.1)]
    exact ih h.2

theorem alistGet_dictSet (d : List (String × JVal)) (k' k : String) (v : JVal) :
    alistGet (dictSet d k' v) k = if k' = k then some v else alistGet d k := by
  unfold dictSet
  by_cases hany : d.any (fun p => p.1 = k')
  · rw [if_pos hany, alistGet_map_set]
    by_cases h1 : k' = k
    · rw [if_pos h1, if_pos h1]
      have : (alistGet d k').isSome := by
        cases hg : alistGet d k' with
        | none => rw [any_key_of_alistGet_none hg] at hany; cases hany
        | some v0 => rfl
      rw [if_pos this]
    · rw [if_neg h1, if_neg h1]
  · rw [if_neg hany]
    have hnone : alistGet d k' = none :=
      alistGet_none_of_any_false (Bool.eq_false_iff.mpr hany)
    by_cases h1 : k' = k
    · subst h1
      rw [alistGet_append_right d _ k' hnone, if_pos rfl]
      unfold alistGet
      rw [if_pos rfl]
    · rw [if_neg h1]
      cases hg : alistGet d k with
      | some v0 =>
        clear hany hnone
        induction d with
        | nil => cases hg
        | cons hd tl ih =>
          obtain ⟨k0, v0'⟩ := hd
          unfold alistGet at hg ⊢
          rw [List.cons_append]
          show (if k0 = k then some v0' else alistGet (tl ++ _) k) = _
          by_cases h0 : k0 = k
          · rw [if_pos h0] at hg ⊢
            exact hg
          · rw [if_neg h0] at hg ⊢
            exact ih hg
      | none =>
        rw [alistGet_append_right d _ k hg]
        unfold alistGet
        rw [if_neg h1]
        rfl

theorem alistGet_dictUpdate_isSome (other : List (String × JVal))
    (d : List (String × JVal)) (k : String) (h : (alistGet d k).isSome) :
    (alistGet (dictUpdate d other) k).isSome := by
  induction other generalizing d with
  | nil => exact h
  | cons hd tl ih =>
    unfold dictUpdate at ih ⊢
    rw [List.foldl_cons]
    apply ih
    rw [alistGet_dictSet]
    by_cases h1 : hd.1 = k
    · rw [if_pos h1]
      rfl
    · rw [if_neg h1]
      exact h

/-- C7: `load_config` is total — every file state yields a config mapping
that carries both a `bridge_ip` and a `username` field — and when the
file is absent or unparsable both fields come from the `HUE_BRIDGE_IP` /
`HUE_USERNAME` environment variables, defaulting to the empty string. -/
theorem load_config_spec (fs : FileState) (env_ip env_user : Option String) :
    ((alistGet (load_config fs env_ip env_user) "bridge_ip").isSome
      ∧ (alistGet (load_config fs env_ip env_user) "username").isSome)
    ∧ ((fs = .absent ∨ fs = .unparsable) →
      alistGet (load_config fs env_ip env_user) "bridge_ip"
          = some (.str (envGetD env_ip))
        ∧ alistGet (load_config fs env_ip env_user) "username"
          = some (.str (envGetD env_user))) := by
  cases fs with
  | absent => exact ⟨⟨rfl, rfl⟩, fun _ => ⟨rfl, rfl⟩⟩
  | unparsable => exact ⟨⟨rfl, rfl⟩, fun _ => ⟨rfl, rfl⟩⟩
  | object kvs =>
    refine ⟨⟨?_, ?_⟩, ?_⟩
    · exact alistGet_dictUpdate_isSome kvs _ "bridge_ip" rfl
    · exact alistGet_dictUpdate_isSome kvs _ "username" rfl
    · intro h
      rcases h with h | h <;> cases h

/-- C7 witness: an unparsable file with `HUE_BRIDGE_IP=192.168.0.10` and
`HUE_USERNAME` unset loads as that IP and the empty username. -/
theorem load_config_spec_witness :
    alistGet (load_config .unparsable (some "192.168.0.10") none) "bridge_ip"
        = some (.str "192.168.0.10")
    ∧ alistGet (load_config .unparsable (some "192.168.0.10") none) "username"
        = some (.str "") :=
  (load_config_spec .unparsable (some "192.168.0.10") none).2 (Or.inr rfl)

/-! ## Hue and saturation bounds (C8) -/

theorem pymod_nonneg (d : ℚ) : 0 ≤ pymod d 360 := by
  have h := Int.floor_le (d / 360)
  unfold pymod
  linarith

theorem pymod_lt (d : ℚ) : pymod d 360 < 360 := by
  have h := Int.lt_floor_add_one (d / 360)
  unfold pymod
  linarith

/-- C8: for every (rational-valued, as every IEEE float is) hue_degrees
`d` — negative included — the native hue sent by `set_color_hs` /
`set_room_color_hs` lies in [0, 65535], and for every sat_percent `s` the
native saturation lies in [0, 254]. -/
theorem native_hue_sat_bounds (lightId : Int) (d s : ℚ) :
    (0 ≤ native_hue d ∧ native_hue d ≤ 65535)
    ∧ (0 ≤ native_sat s ∧ native_sat s ≤ 254)
    ∧ set_color_hs lightId d s
      = [⟨["lights", toString lightId, "state"],
          [("on", .bool true), ("hue", .num (native_hue d)),
           ("sat", .num (native_sat s))]⟩]
    ∧ set_room_color_hs lightId d s
      = [⟨["groups", toString lightId, "action"],
          [("on", .bool true), ("hue", .num (native_hue d)),
           ("sat", .num (native_sat s))]⟩] := by
  refine ⟨⟨?_, ?_⟩, ⟨?_, ?_⟩, rfl, rfl⟩
  · unfold native_hue
    apply pythonRound_nonneg
    have h0 := pymod_nonneg d
    have h1 : 0 ≤ pymod d 360 * 65535 := by nlinarith
    linarith
  · unfold native_hue
    apply pythonRound_le
    have h1 := pymod_lt d
    push_cast
    linarith
  · unfold native_sat
    apply pythonRound_nonneg
    have h0 : (0 : ℚ) ≤ max 0 (min 100 s) := le_max_left 0 _
    have h1 : 0 ≤ max 0 (min 100 s) * 254 := by nlinarith
    linarith
  · unfold native_sat
    apply pythonRound_le
    have h1 : max 0 (min 100 s) ≤ 100 := by
      apply max_le (by norm_num)
      calc min 100 s ≤ 100 := min_le_left 100 s
        _ ≤ 100 := le_refl 100
    push_cast
    linarith

/-! ## Pairing extraction (C9, C10) -/

theorem raise_if_error_arr (items : List JVal) :
    raise_if_error (.arr items)
      = raise_first_err items >>= fun _ => .ok (.arr items) := rfl

/-- An item the `create_user` loop passes over: an object whose
`success` is absent, falsy, or an object without a `username` key. -/
def PreSkip (item : JVal) : Prop :=
  match item with
  | .obj kvs =>
    match alistGet kvs "success" with
    | none => True
    | some sv =>
      jTruthy sv = false
      ∨ (∃ svkvs : List (String × JVal), sv = .obj svkvs
          ∧ alistGet svkvs "username" = none)
  | _ => False

theorem find_username_head {kvs sv : List (String × JVal)} {u : JVal}
    (rest : List JVal) (hs : alistGet kvs "success" = some (.obj sv))
    (hu : alistGet sv "username" = some u) :
    find_username (.obj kvs :: rest) = .ok (some u) := by
  have htr : jTruthy (.obj sv) = true := by
    cases sv with
    | nil => cases hu
    | cons hd tl => rfl
  unfold find_username
  rw [pyGet_obj, ok_bind, hs]
  simp only []
  rw [if_pos htr, pyIn_obj, ok_bind, if_pos (any_key_of_alistGet hu),
    pySubscript_obj, hu, ok_bind]
  rfl

theorem find_username_cons (item : JVal) (rest : List JVal) :
    find_username (item :: rest)
      = (do
          let succ ← pyGet item "success"
          match succ with
          | some sv =>
            if jTruthy sv then do
              if ← pyIn "username" sv then do
                let v ← pySubscript sv "username"
                pure (some v)
              else find_username rest
            else find_username rest
          | none => find_username rest : Except PyErr (Option JVal)) := rfl

theorem find_username_skip {item : JVal} (rest : List JVal) (h : PreSkip item) :
    find_username (item :: rest) = find_username rest := by
  unfold PreSkip at h
  cases item with
  | obj kvs =>
    simp only [] at h
    rw [find_username_cons, pyGet_obj, ok_bind]
    cases hs : alistGet kvs "success" with
    | none => rfl
    | some sv =>
      rw [hs] at h
      simp only [] at h
      simp only []
      rcases h with hfalsy | ⟨svk, hsv, hnone⟩
      · rw [if_neg (by simp [hfalsy])]
      · subst hsv
        by_cases ht : jTruthy (.obj svk)
        · rw [if_pos ht, pyIn_obj, ok_bind,
            if_neg (by simp [any_key_of_alistGet_none hnone])]
        · rw [if_neg ht]
  | null => cases h
  | bool b => cases h
  | num q => cases h
  | str s => cases h
  | arr xs => cases h

theorem find_username_at {good sv : List (String × JVal)} {u : JVal}
    (pre rest : List JVal) (hpre : ∀ item ∈ pre, PreSkip item)
    (hs : alistGet good "success" = some (.obj sv))
    (hu : alistGet sv "username" = some u) :
    find_username (pre ++ .obj good :: rest) = .ok (some u) := by
  induction pre with
  | nil =>
    rw [List.nil_append]
    exact find_username_head rest hs hu
  | cons hd tl ih =>
    rw [List.cons_append,
      find_username_skip _ (hpre hd (List.mem_cons_self hd tl))]
    exact ih (fun item hm => hpre item (List.mem_cons_of_mem _ hm))

/-- C9 (amended): for a pairing response that is a list of items none of
which carries an `error` envelope, whose first success-matching item is
an object with a truthy `success` object holding a `username`,
`create_user` returns that username value exactly as received, and the
save flow (`SettingsScreen.save` with an empty username field and a
nonempty bridge IP) persists it with the stripped bridge IP via
`save_config`. -/
theorem create_user_extracts (u : JVal) (pre rest : List JVal)
    (good sv : List (String × JVal)) (bridge_ip username : String)
    (hnoerr : ∀ item ∈ pre ++ .obj good :: rest, is_err_item item = false)
    (hpre : ∀ item ∈ pre, PreSkip item)
    (hs : alistGet good "success" = some (.obj sv))
    (hu : alistGet sv "username" = some u) :
    create_user (.arr (pre ++ .obj good :: rest)) = .ok u
    ∧ (pyStrip bridge_ip ≠ "" → pyStrip username = "" →
        settings_save bridge_ip username (.arr (pre ++ .obj good :: rest))
          = some (pyStrip bridge_ip, u)) := by
  have hcu : create_user (.arr (pre ++ .obj good :: rest)) = .ok u := by
    unfold create_user
    rw [raise_if_error_arr, raise_first_err_ok hnoerr, ok_bind, ok_bind]
    simp only []
    rw [find_username_at pre rest hpre hs hu, ok_bind]
    rfl
  refine ⟨hcu, fun hip husr => ?_⟩
  unfold settings_save
  rw [if_neg hip, if_pos husr, hcu]

/-- C9 counterexample: the claim as stated fails when the list also
carries a vendor error envelope (as it does while the link button is
unpressed): `create_user` raises the Hue error instead of returning the
username the success envelope holds. -/
theorem create_user_error_first :
    create_user (.arr
      [.obj [("error", .obj [("type", .num 101),
          ("description", .str "link button not pressed"),
          ("address", .str "/")])],
       .obj [("success", .obj [("username", .str "abc")])]])
      = .error (.runtimeError "Hue error 101: link button not pressed (/)")
    ∧ ∀ u : JVal, create_user (.arr
      [.obj [("error", .obj [("type", .num 101),
          ("description", .str "link button not pressed"),
          ("address", .str "/")])],
       .obj [("success", .obj [("username", .str "abc")])]])
      ≠ .ok u := by
  constructor
  · rfl
  · intro u h
    rw [show create_user (.arr
        [.obj [("error", .obj [("type", .num 101),
            ("description", .str "link button not pressed"),
            ("address", .str "/")])],
         .obj [("success", .obj [("username", .str "abc")])]])
        = .error (.runtimeError "Hue error 101: link button not pressed (/)")
      from rfl] at h
    cases h

/-- C9 witness: the spec's example — a singleton success list with
username `"abc"` and bridge IP `192.168.1.2` — extracts `"abc"` and saves
`("192.168.1.2", "abc")`. -/
theorem create_user_extracts_witness :
    create_user (.arr [.obj [("success", .obj [("username", .str "abc")])]])
      = .ok (.str "abc")
    ∧ settings_save "192.168.1.2" ""
        (.arr [.obj [("success", .obj [("username", .str "abc")])]])
      = some ("192.168.1.2", .str "abc") := by
  have h := create_user_extracts (.str "abc") [] []
    [("success", .obj [("username", .str "abc")])] [("username", .str "abc")]
    "192.168.1.2" ""
    (by intro item hm; simp only [List.nil_append, List.mem_singleton] at hm;
        subst hm; rfl)
    (by intro item hm; cases hm) rfl rfl
  exact ⟨h.1, by simpa using h.2 (by decide) rfl⟩

/-- C10: a pairing response that is a single JSON object (not a list)
carrying a success envelope with a username — and no error envelope — is
not accepted: `create_user` raises the "Unexpected Hue response creating
user." error instead of extracting the credential. -/
theorem create_user_rejects_dict (kvs sv : List (String × JVal)) (u : JVal)
    (hnoerr : alistGet kvs "error" = none)
    (hs : alistGet kvs "success" = some (.obj sv))
    (hu : alistGet sv "username" = some u) :
    create_user (.obj kvs)
      = .error (.runtimeError "Unexpected Hue response creating user.") := by
  unfold create_user
  rw [raise_if_error_obj, hnoerr, ok_bind]
  rfl

/-- C10 witness: the dict-shaped success envelope
`{"success": {"username": "abc"}}` is rejected. -/
theorem create_user_rejects_dict_witness :
    create_user (.obj [("success", .obj [("username", .str "abc")])])
      = .error (.runtimeError "Unexpected Hue response creating user.") :=
  create_user_rejects_dict [("success", .obj [("username", .str "abc")])]
    [("username", .str "abc")] (.str "abc") rfl rfl rfl


end Hue
